import Mathlib

/-!
Shallow embedding of `dao.py`, a data-access layer for a product catalog
backed by a single SQLite file with one table `products(id, name,
description, cost, qty)`.

Modelling choices:
* A table row is a `Row` (id plus the four payload fields); the payload
  alone is a `Product` (what the caller passes to `add_product` /
  `update_product` as a dict).
* `cost REAL` is modelled as `ℚ` (every value stored or compared by the
  code, including all seed literals, is exactly representable; no float
  arithmetic is performed).
* `qty INTEGER` is modelled as `ℤ` (SQLite integers are signed and the
  code performs no range check).
* The database file state is `DB`: the list of rows of `products` in rowid
  order, plus `nextId`, the AUTOINCREMENT sequence value (SQLite's
  `sqlite_sequence` entry plus one): the id handed to the next insert,
  never reused even after deletes.
* A path at which no database file exists is `(none : Option DB)`; an
  existing file is `some db`.  `sqlite3.connect` on a missing file creates
  an empty database, and `create_tables` then creates the single empty
  `products` table — the state `emptyDB` — before seeding.
-/

namespace Dao

/-- The four payload fields the caller supplies as a dict. -/
structure Product where
  name : String
  descr : String
  cost : ℚ
  qty : ℤ
deriving DecidableEq, Repr

/-- One row of the `products` table. -/
structure Row where
  id : ℕ
  name : String
  descr : String
  cost : ℚ
  qty : ℤ
deriving DecidableEq, Repr

/-- The payload of a row, forgetting the auto-assigned id. -/
def Row.toProduct (r : Row) : Product :=
  ⟨r.name, r.descr, r.cost, r.qty⟩

/-- State of the database file: rows of `products` in rowid order, and the
AUTOINCREMENT sequence (`nextId` is the id the next INSERT receives). -/
structure DB where
  rows : List Row
  nextId : ℕ
deriving DecidableEq, Repr

/-- The state right after `CREATE TABLE products(...)` on a fresh file:
empty table, AUTOINCREMENT starts at 1. -/
def emptyDB : DB := ⟨[], 1⟩

/-- `INSERT INTO products (name, description, cost, qty) VALUES (?,?,?,?)`:
appends a row with the auto-assigned id and bumps the sequence.
(`add_product` in dao.py runs exactly this statement.) -/
def add_product (db : DB) (p : Product) : DB :=
  { rows := db.rows ++ [⟨db.nextId, p.name, p.descr, p.cost, p.qty⟩],
    nextId := db.nextId + 1 }

/-- The literal seed list of `insert_initial_data` (dao.py lines 43-64). -/
def seedProducts : List Product := [
  ⟨"Backpack", "A durable and stylish backpack for daily use.", 800, 10⟩,
  ⟨"Wireless Mouse", "A sleek and ergonomic wireless mouse with a long battery life.", 800, 20⟩,
  ⟨"Bluetooth Speaker", "A portable Bluetooth speaker with high-quality sound and deep bass.", 3000, 30⟩,
  ⟨"Laptop Stand", "An adjustable laptop stand for better posture and cooling.", 250, 15⟩,
  ⟨"Notebook", "A premium notebook with thick, high-quality paper.", 50, 50⟩,
  ⟨"Smartphone Case", "A durable and stylish case for protecting your smartphone.", 150, 25⟩,
  ⟨"Power Bank", "A high-capacity power bank with fast charging support.", 900, 20⟩,
  ⟨"Headphones", "Over-ear headphones with noise cancellation and deep bass.", 5000, 10⟩,
  ⟨"Gaming Keyboard", "A mechanical gaming keyboard with RGB lighting.", 3000, 10⟩,
  ⟨"USB-C Hub", "A multi-port USB-C hub for all your connectivity needs.", 400, 25⟩,
  ⟨"Fitness Tracker", "A sleek fitness tracker with heart rate monitoring.", 1000, 20⟩,
  ⟨"Travel Mug", "An insulated travel mug that keeps your drinks hot or cold.", 500, 30⟩,
  ⟨"Desk Organizer", "A compact desk organizer for keeping your workspace tidy.", 1200, 40⟩,
  ⟨"External Hard Drive", "A portable external hard drive with 1TB of storage.", 800, 15⟩,
  ⟨"Wireless Charger", "A fast wireless charger compatible with most devices.", 2500, 30⟩,
  ⟨"Digital Camera", "A compact digital camera with 4K video recording.", 20000, 5⟩,
  ⟨"Electric Kettle", "A fast-boiling electric kettle with auto shut-off.", 3000, 20⟩,
  ⟨"Smart Watch", "A stylish smartwatch with fitness and notification features.", 12000, 10⟩,
  ⟨"LED Desk Lamp", "A modern LED desk lamp with adjustable brightness.", 2000, 35⟩,
  ⟨"Portable Projector", "A mini portable projector with HD resolution.", 15000, 8⟩]

/-- `insert_initial_data`: `executemany` of the seed INSERT over the
literal list, i.e. one `add_product`-shaped INSERT per seed product. -/
def insert_initial_data (db : DB) : DB :=
  seedProducts.foldl add_product db

/-- `create_tables` on a fresh file: `CREATE TABLE IF NOT EXISTS products`
(the table did not exist, so this yields the empty table) followed by
`insert_initial_data`. -/
def create_tables : DB :=
  insert_initial_data emptyDB

/-- `connect(path)`: if no file exists at the path, the connection creates
the database and `create_tables` runs; otherwise the existing database is
left untouched.  This is the resulting file state. -/
def connect (file : Option DB) : DB :=
  match file with
  | none => create_tables
  | some db => db

/-- `SELECT * FROM products WHERE id = ?` followed by `fetchone()`
(`get_product`): the first row with the given id, `none` when absent. -/
def get_product (db : DB) (i : ℕ) : Option Row :=
  db.rows.find? (fun r => r.id == i)

/-- `list_products`: `SELECT * FROM products`, then a client-side stable
sort of the rows by the `name` field, ascending. -/
def nameLe (a b : Row) : Prop := a.name ≤ b.name

instance : DecidableRel nameLe := fun a b =>
  inferInstanceAs (Decidable (a.name ≤ b.name))

instance : IsTotal Row nameLe := ⟨fun a b => le_total a.name b.name⟩

instance : IsTrans Row nameLe := ⟨fun _ _ _ h h2 => le_trans h h2⟩

def list_products (db : DB) : List Row :=
  db.rows.insertionSort nameLe

/-- `UPDATE products SET qty = ? WHERE id = ?` (`update_qty`). -/
def update_qty (db : DB) (i : ℕ) (q : ℤ) : DB :=
  { db with rows := db.rows.map (fun r => if r.id == i then { r with qty := q } else r) }

/-- `DELETE FROM products WHERE id = ?` (`delete_product`). -/
def delete_product (db : DB) (i : ℕ) : DB :=
  { db with rows := db.rows.filter (fun r => r.id != i) }

/-- `UPDATE products SET name = ?, description = ?, cost = ?, qty = ?
WHERE id = ?` (`update_product`). -/
def update_product (db : DB) (i : ℕ) (p : Product) : DB :=
  { db with rows := db.rows.map (fun r =>
      if r.id == i then ⟨r.id, p.name, p.descr, p.cost, p.qty⟩ else r) }

/-- One call against the store (the four mutating CRUD operations). -/
inductive Op where
  | add (p : Product)
  | update (i : ℕ) (p : Product)
  | updateQty (i : ℕ) (q : ℤ)
  | delete (i : ℕ)
deriving DecidableEq, Repr

/-- Effect of one operation on the file state. -/
def step (db : DB) : Op → DB
  | .add p => add_product db p
  | .update i p => update_product db i p
  | .updateQty i q => update_qty db i q
  | .delete i => delete_product db i

/-- Effect of a sequence of operations. -/
def run (db : DB) : List Op → DB
  | [] => db
  | op :: ops => run (step db op) ops

/-- All ids that appear in some state along the run, including ids of rows
that are later deleted. -/
def everIds (db : DB) : List Op → List ℕ
  | [] => db.rows.map Row.id
  | op :: ops => db.rows.map Row.id ++ everIds (step db op) ops

/-- A payload satisfying the spec's column constraints: non-empty name,
non-negative cost, non-negative quantity. -/
def ProductValid (p : Product) : Prop :=
  p.name ≠ "" ∧ 0 ≤ p.cost ∧ 0 ≤ p.qty

/-- A row satisfying the spec's column constraints. -/
def RowValid (r : Row) : Prop :=
  r.name ≠ "" ∧ 0 ≤ r.cost ∧ 0 ≤ r.qty

/-- An operation whose supplied values satisfy the column constraints. -/
def OpValid : Op → Prop
  | .add p => ProductValid p
  | .update _ p => ProductValid p
  | .updateQty _ q => 0 ≤ q
  | .delete _ => True

instance (p : Product) : Decidable (ProductValid p) :=
  inferInstanceAs (Decidable (p.name ≠ "" ∧ 0 ≤ p.cost ∧ 0 ≤ p.qty))

instance (r : Row) : Decidable (RowValid r) :=
  inferInstanceAs (Decidable (r.name ≠ "" ∧ 0 ≤ r.cost ∧ 0 ≤ r.qty))

instance : (op : Op) → Decidable (OpValid op)
  | .add p => inferInstanceAs (Decidable (ProductValid p))
  | .update _ p => inferInstanceAs (Decidable (ProductValid p))
  | .updateQty _ q => inferInstanceAs (Decidable (0 ≤ q))
  | .delete _ => inferInstanceAs (Decidable True)

/-- SQLite connection handle as seen by the caller of `connect`. -/
structure Conn where
  isOpen : Bool
deriving DecidableEq, Repr

/-- `connect(path)` including the handle lifecycle: `get_connection`
opens the handle, the body runs inside the `with` block (creating tables
on a fresh path and setting `row_factory`), and the context manager's
`finally` clause commits and closes the handle when the `with` block
exits — before `connect` executes `return conn`.  The result is the
handle `connect` returns, paired with the resulting file state. -/
def connect_result (file : Option DB) : Conn × DB :=
  let conn : Conn := { isOpen := true }
  let db := connect file
  let connOut : Conn := { conn with isOpen := false }
  (connOut, db)

/-- The `get_connection` context manager around one statement, as used by
every CRUD operation: the body may succeed or raise, and the `finally`
clause runs `conn.commit()` and then `conn.close()`.  `commitOk` is the
environment's verdict on that commit (storage failures propagate
uncaught).  Returns the call's outcome together with whether the handle
ended up closed: `conn.close()` runs only if the commit before it in the
`finally` clause did not raise. -/
def with_connection (commitOk : Bool) (body : DB → Except String DB) (db : DB) :
    Except String DB × Bool :=
  match body db with
  | .ok db2 => if commitOk then (.ok db2, true) else (.error "commit failed", false)
  | .error e => if commitOk then (.error e, true) else (.error "commit failed", false)

/-! ### Helper lemmas -/

/-- Every row id is below the AUTOINCREMENT sequence value. -/
def Inv (db : DB) : Prop :=
  ∀ r ∈ db.rows, r.id < db.nextId

lemma inv_connect_none : Inv (connect none) := by
  have h : ∀ r ∈ (connect none).rows, r.id < (connect none).nextId := by decide
  exact h

lemma nextId_le_step (db : DB) (op : Op) : db.nextId ≤ (step db op).nextId := by
  cases op <;>
    simp [step, add_product, update_product, update_qty, delete_product]

lemma inv_step (db : DB) (op : Op) (h : Inv db) : Inv (step db op) := by
  cases op with
  | add p =>
    intro r hr
    rcases List.mem_append.mp hr with hr | hr
    · exact Nat.lt_succ_of_lt (h r hr)
    · rcases List.mem_singleton.mp hr with rfl
      exact Nat.lt_succ_self _
  | update i p =>
    intro r hr
    rcases List.mem_map.mp hr with ⟨x, hx, rfl⟩
    by_cases hxi : x.id == i <;> simp [hxi] <;> exact h x hx
  | updateQty i q =>
    intro r hr
    rcases List.mem_map.mp hr with ⟨x, hx, rfl⟩
    by_cases hxi : x.id == i <;> simp [hxi] <;> exact h x hx
  | delete i =>
    intro r hr
    exact h r (List.mem_of_mem_filter hr)

lemma nextId_le_run (ops : List Op) (db : DB) : db.nextId ≤ (run db ops).nextId := by
  induction ops generalizing db with
  | nil => exact Nat.le_refl _
  | cons op ops ih => exact Nat.le_trans (nextId_le_step db op) (ih (step db op))

lemma inv_run (ops : List Op) (db : DB) (h : Inv db) : Inv (run db ops) := by
  induction ops generalizing db with
  | nil => exact h
  | cons op ops ih => exact ih (step db op) (inv_step db op h)

lemma everIds_lt_run (ops : List Op) (db : DB) (h : Inv db) :
    ∀ n ∈ everIds db ops, n < (run db ops).nextId := by
  induction ops generalizing db with
  | nil =>
    intro n hn
    rcases List.mem_map.mp hn with ⟨r, hr, rfl⟩
    exact h r hr
  | cons op ops ih =>
    intro n hn
    rcases List.mem_append.mp hn with hn | hn
    · rcases List.mem_map.mp hn with ⟨r, hr, rfl⟩
      exact Nat.lt_of_lt_of_le (h r hr)
        (Nat.le_trans (nextId_le_step db op) (nextId_le_run ops (step db op)))
    · exact ih (step db op) (inv_step db op h) n hn

lemma find?_append_of_forall_false (p : Row → Bool) (l1 l2 : List Row)
    (h : ∀ a ∈ l1, p a = false) : (l1 ++ l2).find? p = l2.find? p := by
  induction l1 with
  | nil => rfl
  | cons a l ih =>
    have ha := h a (List.mem_cons_self a l)
    simp only [List.cons_append, List.find?, ha]
    exact ih (fun b hb => h b (List.mem_cons_of_mem a hb))

lemma find?_map_id_preserving (u : Row → Row) (hu : ∀ r, (u r).id = r.id) (i : ℕ) :
    ∀ l : List Row, (l.map u).find? (fun r => r.id == i) =
      Option.map u (l.find? (fun r => r.id == i))
  | [] => rfl
  | a :: l => by
    by_cases h : a.id = i
    · simp [List.find?, hu a, h]
    · simp only [List.map, List.find?, hu a, beq_eq_false_iff_ne.mpr h]
      exact find?_map_id_preserving u hu i l

lemma filter_map_frame (u : Row → Row) (i : ℕ) (hu_id : ∀ r, (u r).id = r.id)
    (hu : ∀ r, r.id ≠ i → u r = r) :
    ∀ l : List Row, (l.map u).filter (fun r => r.id != i) =
      l.filter (fun r => r.id != i)
  | [] => rfl
  | a :: l => by
    by_cases h : a.id = i
    · simp [List.filter_cons, hu_id a, h, filter_map_frame u i hu_id hu l]
    · simp [List.filter_cons, hu a h, h, filter_map_frame u i hu_id hu l]

lemma find?_filter_ne_eq_none (l : List Row) (i : ℕ) :
    (l.filter (fun r => r.id != i)).find? (fun r => r.id == i) = none := by
  rw [List.find?_eq_none]
  intro a ha
  have := List.of_mem_filter ha
  simp only [bne_iff_ne, ne_eq] at this
  simp [this]

lemma map_id_of_missing (u : Row → Row) (i : ℕ) (hu : ∀ r, r.id ≠ i → u r = r) :
    ∀ l : List Row, (∀ r ∈ l, r.id ≠ i) → l.map u = l
  | [], _ => rfl
  | a :: l, h => by
    simp only [List.map, hu a (h a (List.mem_cons_self a l)),
      map_id_of_missing u i hu l (fun r hr => h r (List.mem_cons_of_mem a hr))]

lemma filter_ne_of_missing (l : List Row) (i : ℕ) (h : ∀ r ∈ l, r.id ≠ i) :
    l.filter (fun r => r.id != i) = l := by
  rw [List.filter_eq_self]
  intro a ha
  simp [h a ha]

lemma find?_none_of_missing (l : List Row) (i : ℕ) (h : ∀ r ∈ l, r.id ≠ i) :
    l.find? (fun r => r.id == i) = none := by
  rw [List.find?_eq_none]
  intro a ha
  simp [h a ha]

/-! ### Claim theorems -/

/-- Claim C2: connecting against a fresh path creates the single
`products` table and seeds it: the table then holds exactly 20 rows,
whose payloads are exactly the fixed literal seed list (in order, each
inserted exactly once), under 20 distinct auto-assigned ids 1 through
20. -/
theorem connect_fresh_creates_twenty_seed_rows :
    (connect none).rows.length = 20 ∧
    (connect none).rows.map Row.toProduct = seedProducts ∧
    (connect none).rows.map Row.id = List.range' 1 20 ∧
    List.Nodup ((connect none).rows.map Row.toProduct) :=
  ⟨rfl, rfl, by decide, by decide⟩

/-- Claim C3: `list_products` returns exactly the rows of the table (a
permutation of them), sorted by name ascending, and the empty table
yields the empty sequence. -/
theorem list_products_sorted_by_name (db : DB) :
    List.Sorted nameLe (list_products db) ∧
    (list_products db).Perm db.rows ∧
    (db.rows = [] → list_products db = []) := by
  refine ⟨List.sorted_insertionSort nameLe db.rows,
    List.perm_insertionSort nameLe db.rows, ?_⟩
  intro h
  unfold list_products
  rw [h]
  rfl

theorem list_products_sorted_by_name_witness :
    List.Sorted nameLe (list_products (connect none)) ∧
    (list_products (connect none)).Perm (connect none).rows ∧
    ((connect none).rows = [] → list_products (connect none) = []) :=
  list_products_sorted_by_name (connect none)

/-- Claim C5: deleting an id and then fetching it yields the absence
signal `none`, whatever the store state; and when the id matches no row,
the delete leaves the store unchanged (it does not raise: it is a total
function here, as `DELETE` touching zero rows is not an error). -/
theorem delete_then_get_absent (db : DB) (i : ℕ) :
    get_product (delete_product db i) i = none ∧
    (get_product db i = none → delete_product db i = db) := by
  constructor
  · exact find?_filter_ne_eq_none db.rows i
  · intro h
    have hmiss : ∀ r ∈ db.rows, r.id ≠ i := by
      rw [get_product, List.find?_eq_none] at h
      intro r hr
      simpa using h r hr
    show { db with rows := db.rows.filter (fun r => r.id != i) } = db
    rw [filter_ne_of_missing db.rows i hmiss]

theorem delete_then_get_absent_witness :
    get_product (delete_product (connect none) 99) 99 = none ∧
    (get_product (connect none) 99 = none →
      delete_product (connect none) 99 = connect none) :=
  delete_then_get_absent (connect none) 99

/-- Claim C6: on an id that matches no row, `get_product` returns the
absence signal `none`, and each of `update_product`, `update_qty` and
`delete_product` is a total function that creates no row and leaves the
store exactly unchanged. -/
theorem missing_id_mutations_noop (db : DB) (i : ℕ) (p : Product) (q : ℤ)
    (h : ∀ r ∈ db.rows, r.id ≠ i) :
    get_product db i = none ∧
    update_product db i p = db ∧
    update_qty db i q = db ∧
    delete_product db i = db := by
  have hu_upd : ∀ r : Row, r.id ≠ i →
      (if r.id == i then (⟨r.id, p.name, p.descr, p.cost, p.qty⟩ : Row) else r) = r := by
    intro r hr
    simp [hr]
  have hu_qty : ∀ r : Row, r.id ≠ i →
      (if r.id == i then { r with qty := q } else r) = r := by
    intro r hr
    simp [hr]
  refine ⟨find?_none_of_missing db.rows i h, ?_, ?_, ?_⟩
  · unfold update_product
    rw [map_id_of_missing _ i hu_upd db.rows h]
  · unfold update_qty
    rw [map_id_of_missing _ i hu_qty db.rows h]
  · unfold delete_product
    rw [filter_ne_of_missing db.rows i h]

theorem missing_id_mutations_noop_witness :
    get_product (connect none) 21 = none ∧
    update_product (connect none) 21 ⟨"Pen", "Blue ink pen", 20, 100⟩ = connect none ∧
    update_qty (connect none) 21 5 = connect none ∧
    delete_product (connect none) 21 = connect none :=
  missing_id_mutations_noop (connect none) 21 ⟨"Pen", "Blue ink pen", 20, 100⟩ 5 (by decide)

/-- Claim C7: connecting a second time against the same, now existing,
file skips table creation and seeding entirely — the state is returned
untouched — so the table still holds exactly one copy of each of the 20
seed payloads. -/
theorem connect_existing_skips_seeding :
    connect (some (connect none)) = connect none ∧
    ∀ p ∈ seedProducts,
      ((connect (some (connect none))).rows.map Row.toProduct).count p = 1 :=
  ⟨rfl, by decide⟩

/-- Claim C1: in any state reachable from a fresh store, adding a product
and then fetching the newly assigned identifier returns a record whose
name, description, cost and quantity are exactly the supplied values; and
that identifier was never in use by any row of any earlier state of the
run, rows since deleted included. -/
theorem add_then_get_returns_fields_with_fresh_id (ops : List Op) (p : Product) :
    get_product (add_product (run (connect none) ops) p) (run (connect none) ops).nextId =
      some ⟨(run (connect none) ops).nextId, p.name, p.descr, p.cost, p.qty⟩ ∧
    (run (connect none) ops).nextId ∉ everIds (connect none) ops := by
  have hinv : Inv (run (connect none) ops) := inv_run ops (connect none) inv_connect_none
  constructor
  · simp only [get_product, add_product]
    rw [find?_append_of_forall_false _ _ _
      (fun a ha => beq_eq_false_iff_ne.mpr (Nat.ne_of_lt (hinv a ha)))]
    simp [List.find?]
  · intro hmem
    exact absurd (everIds_lt_run ops (connect none) inv_connect_none _ hmem)
      (lt_irrefl _)

/-- Claim C4: when the id is present (fetching it yields row `r`),
updating its quantity and fetching again returns `r` with only the
quantity field replaced by the supplied value — identifier, name,
description and cost unchanged — and the rows at every other identifier
are exactly unchanged. -/
theorem update_qty_then_get (db : DB) (i : ℕ) (q : ℤ) (r : Row)
    (h : get_product db i = some r) :
    get_product (update_qty db i q) i = some ⟨r.id, r.name, r.descr, r.cost, q⟩ ∧
    (update_qty db i q).rows.filter (fun x => x.id != i) =
      db.rows.filter (fun x => x.id != i) := by
  have hu_id : ∀ x : Row,
      (if x.id == i then ({ x with qty := q } : Row) else x).id = x.id := by
    intro x
    by_cases hx : x.id == i <;> simp [hx]
  unfold get_product at h
  have hr : (r.id == i) = true := @List.find?_some Row (fun x => x.id == i) r db.rows h
  constructor
  · simp only [get_product, update_qty]
    rw [find?_map_id_preserving _ hu_id i db.rows, h]
    simp only [Option.map_some']
    rw [if_pos hr]
  · simp only [update_qty]
    exact filter_map_frame _ i hu_id (fun x hx => by simp [hx]) db.rows

theorem update_qty_then_get_witness :
    get_product (update_qty (connect none) 1 5) 1 =
      some ⟨1, "Backpack", "A durable and stylish backpack for daily use.", 800, 5⟩ ∧
    (update_qty (connect none) 1 5).rows.filter (fun x => x.id != 1) =
      (connect none).rows.filter (fun x => x.id != 1) :=
  update_qty_then_get (connect none) 1 5
    ⟨1, "Backpack", "A durable and stylish backpack for daily use.", 800, 10⟩ (by decide)

/-- Claim C8 is refuted by this state: from a fresh store, the single
reachable operation `updateQty 1 (-5)` yields a table with a row whose
quantity is negative — the code runs the UPDATE with no validation — so
not every row of every reachable state satisfies the column constraints
(non-empty name, non-negative cost, non-negative quantity). -/
theorem reachable_row_violates_constraints :
    ¬ ∀ r ∈ (run (connect none) [Op.updateQty 1 (-5)]).rows, RowValid r := by
  decide

lemma valid_step (db : DB) (op : Op) (hdb : ∀ r ∈ db.rows, RowValid r)
    (hop : OpValid op) : ∀ r ∈ (step db op).rows, RowValid r := by
  cases op with
  | add p =>
    intro r hr
    rcases List.mem_append.mp hr with hr | hr
    · exact hdb r hr
    · rcases List.mem_singleton.mp hr with rfl
      exact ⟨hop.1, hop.2.1, hop.2.2⟩
  | update i p =>
    intro r hr
    rcases List.mem_map.mp hr with ⟨x, hx, rfl⟩
    by_cases hxi : x.id == i
    · simp only [hxi, if_true]
      exact ⟨hop.1, hop.2.1, hop.2.2⟩
    · simp only [hxi, Bool.false_eq_true, if_false]
      exact hdb x hx
  | updateQty i q =>
    intro r hr
    rcases List.mem_map.mp hr with ⟨x, hx, rfl⟩
    by_cases hxi : x.id == i
    · simp only [hxi, if_true]
      exact ⟨(hdb x hx).1, (hdb x hx).2.1, hop⟩
    · simp only [hxi, Bool.false_eq_true, if_false]
      exact hdb x hx
  | delete i =>
    intro r hr
    exact hdb r (List.mem_of_mem_filter hr)

lemma valid_run (ops : List Op) (db : DB) (hdb : ∀ r ∈ db.rows, RowValid r)
    (hops : ∀ op ∈ ops, OpValid op) : ∀ r ∈ (run db ops).rows, RowValid r := by
  induction ops generalizing db with
  | nil => exact hdb
  | cons op ops ih =>
    exact ih (step db op) (valid_step db op hdb (hops op (List.mem_cons_self op ops)))
      (fun o ho => hops o (List.mem_cons_of_mem op ho))

/-- Claim C8 amended: every state reachable from a fresh store by
operations whose supplied values themselves satisfy the column
constraints (non-empty name, non-negative cost, non-negative quantity
supplied to add/update, non-negative quantity supplied to updateQty) has
only rows with a non-empty name, a non-negative cost and a non-negative
quantity.  The code performs no validation, so the unamended claim fails
for operations carrying invalid values. -/
theorem valid_ops_preserve_constraints (ops : List Op)
    (hops : ∀ op ∈ ops, OpValid op) :
    ∀ r ∈ (run (connect none) ops).rows, RowValid r := by
  have hseed : ∀ r ∈ (connect none).rows, RowValid r := by decide
  exact valid_run ops (connect none) hseed hops

theorem valid_ops_preserve_constraints_witness :
    (∀ op ∈ [Op.add ⟨"Pen", "Blue ink pen", 20, 100⟩], OpValid op) ∧
    ∀ r ∈ (run (connect none) [Op.add ⟨"Pen", "Blue ink pen", 20, 100⟩]).rows, RowValid r :=
  ⟨by decide, valid_ops_preserve_constraints _ (by decide)⟩

/-- Claim C9 is refuted by the code (code bug): `connect` executes
`return conn` only after the `with get_connection(path)` block has
exited, and that context manager's `finally` clause has already run
`conn.commit()` and `conn.close()` — immediately after the body set
`row_factory` — so the handle the caller receives is already closed, for
a fresh path and an existing one alike, contradicting the function's own
purpose of establishing a usable connection. -/
theorem connect_returns_closed_handle (file : Option DB) :
    (connect_result file).1.isOpen = false := rfl

/-- Claim C10 counterexample: in the `finally` clause, `conn.commit()`
runs before `conn.close()`; on the exit path where that commit raises
(here: the body succeeded and the commit fails), `conn.close()` is never
reached, so the handle is not released on that exit path. -/
theorem failing_commit_skips_close :
    (with_connection false (fun db => Except.ok db) emptyDB).2 = false := rfl

/-- Claim C10 amended: whenever the commit performed during release
succeeds, the handle is closed on every exit path — both when the
executed statement succeeds and when it raises.  Only a failure of the
release-time commit itself can skip the close. -/
theorem close_runs_when_commit_ok (body : DB → Except String DB) (db : DB) :
    (with_connection true body db).2 = true := by
  unfold with_connection
  rcases body db with db2 | e <;> rfl

end Dao
